import Mathlib

/-!
Verification of the analytical core of PeduliGiziBalitaV4.

Shallow embedding of the z-score calculator, the two classification
taxonomies (modules/who_calculator.py), the curve-inversion routine
(modules/growth_charts.py), and the growth-velocity analysis
(modules/kejar_tumbuh.py).  Python floats are embedded as exact
rationals; NaN / infinity / exceptions from the external pygrowup
service are represented explicitly by the ZRes type, since a rational
can never be NaN or infinite.
-/

namespace PeduliGizi

/-! ## WHO calculator module (modules/who_calculator.py) -/

/-- Possible outcomes of one call to the external reference-curve service
(pyigrowup calculator method): a finite value, NaN, an infinity, a null
result, or a raised exception. -/
inductive ZRes where
  | val (q : ℚ)
  | nanRes
  | infRes
  | nullRes
  | errRes
deriving DecidableEq

/-- The external WHO calculator: one method per indicator, mirroring
pygrowup (wfa, lhfa, wfl, bmifa, hcfa).  Each takes the measured value,
the age in months and the sex; wfl additionally takes the height. -/
structure Calc where
  wfa : ℚ → ℚ → String → ZRes
  lhfa : ℚ → ℚ → String → ZRes
  wfl : ℚ → ℚ → String → ℚ → ZRes
  bmifa : ℚ → ℚ → String → ZRes
  hcfa : ℚ → ℚ → String → ZRes

/-- `_safe_z_calc`: returns None when the calculator is unavailable, the
result is None, the result is NaN or infinite, or the call raised. -/
def safe_z_calc (calcO : Option Calc) (res : ZRes) : Option ℚ :=
  match calcO with
  | none => none
  | some _ =>
    match res with
    | ZRes.val q => some q
    | ZRes.nanRes => none
    | ZRes.infRes => none
    | ZRes.nullRes => none
    | ZRes.errRes => none

/-- The z-score set returned by `calculate_all_zscores`: exactly the five
fields waz, haz, whz, baz, hcz, each independently nullable. -/
structure ZScores where
  waz : Option ℚ
  haz : Option ℚ
  whz : Option ℚ
  baz : Option ℚ
  hcz : Option ℚ
deriving DecidableEq

/-- `calculate_all_zscores(sex, age_months, weight, height, head_circ)`. -/
def calculate_all_zscores (calcO : Option Calc) (sex : String) (age_months : ℚ)
    (weight height head_circ : Option ℚ) : ZScores :=
  match calcO with
  | none => ⟨none, none, none, none, none⟩
  | some c =>
    { waz :=
        match weight with
        | some w => safe_z_calc calcO (c.wfa w age_months sex)
        | none => none
      haz :=
        match height with
        | some h => safe_z_calc calcO (c.lhfa h age_months sex)
        | none => none
      whz :=
        match weight, height with
        | some w, some h => safe_z_calc calcO (c.wfl w age_months sex h)
        | _, _ => none
      baz :=
        match weight, height with
        | some w, some h =>
          if 0 < h then
            safe_z_calc calcO (c.bmifa (w / ((h / 100) ^ 2)) age_months sex)
          else none
        | _, _ => none
      hcz :=
        match head_circ with
        | some hc => safe_z_calc calcO (c.hcfa hc age_months sex)
        | none => none }

/-- Classification labels for the five indicators (string-valued, one
entry per indicator, as in the Python result dictionaries). -/
structure Classifications where
  waz : String
  haz : String
  whz : String
  baz : String
  hcz : String
deriving DecidableEq

/-- Permenkes 2020, weight-for-age branch.  The Python `math.isnan` guard
is vacuous here because a rational is never NaN. -/
def permenkes_waz (waz : Option ℚ) : String :=
  match waz with
  | some z =>
    if z < -3 then "Berat Badan Sangat Kurang"
    else if z < -2 then "Berat Badan Kurang"
    else if z ≤ 2 then "Berat Badan Normal"
    else "Risiko Berat Badan Lebih"
  | none => "Data Tidak Tersedia"

/-- Permenkes 2020, height-for-age branch. -/
def permenkes_haz (haz : Option ℚ) : String :=
  match haz with
  | some z =>
    if z < -3 then "Sangat Pendek (Severely Stunted)"
    else if z < -2 then "Pendek (Stunted)"
    else if z ≤ 3 then "Tinggi Badan Normal"
    else "Tinggi Badan Berlebih"
  | none => "Data Tidak Tersedia"

/-- Permenkes 2020, weight-for-height branch. -/
def permenkes_whz (whz : Option ℚ) : String :=
  match whz with
  | some z =>
    if z < -3 then "Gizi Buruk (Severely Wasted)"
    else if z < -2 then "Gizi Kurang (Wasted)"
    else if z ≤ 2 then "Gizi Baik (Normal)"
    else if z ≤ 3 then "Berisiko Gizi Lebih (Possible Risk of Overweight)"
    else "Gizi Lebih (Overweight)"
  | none => "Data Tidak Tersedia"

/-- Permenkes 2020, BMI-for-age branch (normal band upper bound 1). -/
def permenkes_baz (baz : Option ℚ) : String :=
  match baz with
  | some z =>
    if z < -3 then "Gizi Buruk (Severely Wasted)"
    else if z < -2 then "Gizi Kurang (Wasted)"
    else if z ≤ 1 then "Gizi Baik (Normal)"
    else if z ≤ 2 then "Berisiko Gizi Lebih (Possible Risk of Overweight)"
    else if z ≤ 3 then "Gizi Lebih (Overweight)"
    else "Obesitas (Obese)"
  | none => "Data Tidak Tersedia"

/-- Permenkes 2020, head-circumference branch. -/
def permenkes_hcz (hcz : Option ℚ) : String :=
  match hcz with
  | some z =>
    if |z| ≤ 2 then "Normal"
    else if z < -2 then "Mikrosefali (perlu evaluasi)"
    else "Makrosefali (perlu evaluasi)"
  | none => "Data Tidak Tersedia"

/-- `classify_permenkes_2020(z_scores)`. -/
def classify_permenkes_2020 (z : ZScores) : Classifications :=
  { waz := permenkes_waz z.waz
    haz := permenkes_haz z.haz
    whz := permenkes_whz z.whz
    baz := permenkes_baz z.baz
    hcz := permenkes_hcz z.hcz }

/-- WHO standards, weight-for-age branch. -/
def who_waz (waz : Option ℚ) : String :=
  match waz with
  | some z =>
    if z < -3 then "Severely underweight"
    else if z < -2 then "Underweight"
    else if z ≤ 2 then "Normal weight"
    else "Overweight"
  | none => "N/A"

/-- WHO standards, height-for-age branch. -/
def who_haz (haz : Option ℚ) : String :=
  match haz with
  | some z =>
    if z < -3 then "Severely stunted"
    else if z < -2 then "Stunted"
    else if z ≤ 3 then "Normal height"
    else "Tall"
  | none => "N/A"

/-- WHO standards, weight-for-height branch. -/
def who_whz (whz : Option ℚ) : String :=
  match whz with
  | some z =>
    if z < -3 then "Severely wasted"
    else if z < -2 then "Wasted"
    else if z ≤ 2 then "Normal"
    else if z ≤ 3 then "Risk of overweight"
    else "Overweight"
  | none => "N/A"

/-- WHO standards, BMI-for-age branch (normal band upper bound 1, exactly
as in the source). -/
def who_baz (baz : Option ℚ) : String :=
  match baz with
  | some z =>
    if z < -3 then "Severely wasted"
    else if z < -2 then "Wasted"
    else if z ≤ 1 then "Normal"
    else if z ≤ 2 then "Risk of overweight"
    else if z ≤ 3 then "Overweight"
    else "Obese"
  | none => "N/A"

/-- WHO standards, head-circumference branch. -/
def who_hcz (hcz : Option ℚ) : String :=
  match hcz with
  | some z =>
    if |z| ≤ 2 then "Normal"
    else if z < -2 then "Microcephaly"
    else "Macrocephaly"
  | none => "N/A"

/-- `classify_who_standards(z_scores)`. -/
def classify_who_standards (z : ZScores) : Classifications :=
  { waz := who_waz z.waz
    haz := who_haz z.haz
    whz := who_whz z.whz
    baz := who_baz z.baz
    hcz := who_hcz z.hcz }

/-! ## Growth charts module (modules/growth_charts.py) -/

/-- The main loop of `brentq_rootfind`, fuelled by the remaining
iteration budget (`maxiter`).  State is the current bracket with its
function values; `fb` is carried but, as in the source, never read
inside the loop. -/
def brentqLoop (f : ℚ → Option ℚ) (xtol : ℚ) : ℕ → ℚ × ℚ → ℚ × ℚ → ℚ
  | 0, (a, _), (b, _) => (a + b) / 2
  | fuel + 1, (a, fa), (b, fb) =>
    match f ((a + b) / 2) with
    | none => (a + b) / 2
    | some fm =>
      if |fm| < 1 / 10 ^ 10 ∨ (b - a) / 2 < xtol then (a + b) / 2
      else if fa * fm < 0 then brentqLoop f xtol fuel (a, fa) ((a + b) / 2, fm)
      else brentqLoop f xtol fuel ((a + b) / 2, fm) (b, fb)

/-- `brentq_rootfind(f, a, b, xtol, maxiter)` (the source defaults are
`xtol = 1e-6`, `maxiter = 100`; callers pass them explicitly here). -/
def brentq_rootfind (f : ℚ → Option ℚ) (a b xtol : ℚ) (maxiter : ℕ) : ℚ :=
  match f a, f b with
  | none, _ => (a + b) / 2
  | some _, none => (a + b) / 2
  | some fa, some fb =>
    if |fa| < 1 / 10 ^ 10 then a
    else if |fb| < 1 / 10 ^ 10 then b
    else if 0 < fa * fb then (a + b) / 2
    else brentqLoop f xtol maxiter (a, fa) (b, fb)

/-- `np.linspace(lo, hi, n)`: `n` evenly spaced points from `lo` to `hi`
inclusive. -/
def linspace (lo hi : ℚ) (n : ℕ) : List ℚ :=
  if n = 0 then []
  else if n = 1 then [lo]
  else (List.range n).map fun (i : ℕ) => lo + (i : ℚ) * (hi - lo) / ((n : ℚ) - 1)

/-- The update of the best-sample pair `(best_x, best_abs)` by a usable
sample `x` with residual `f`. -/
def bestUpdate (best : Option (ℚ × ℚ)) (x f : ℚ) : Option (ℚ × ℚ) :=
  match best with
  | none => some (x, |f|)
  | some (bx, ba) => if |f| < ba then some (x, |f|) else some (bx, ba)

/-- The sample loop of `invert_zscore_function`: walks the sample points,
tracking the last usable sample `(last_x, last_f)` and the best sample
`(best_x, best_abs)`; on a sign change it refines by `brentq_rootfind`
with `xtol = 1e-5` and returns immediately.  The Python wrapper
`z_func(t) or 0.0` maps a null z to 0 (and 0.0 to itself). -/
def invertGo (zf : ℚ → Option ℚ) (targetZ lo hi : ℚ) :
    List ℚ → Option (ℚ × ℚ) → Option (ℚ × ℚ) → ℚ
  | [], _, best =>
    match best with
    | some (bx, _) => bx
    | none => (lo + hi) / 2
  | x :: xs, last, best =>
    match zf x with
    | none => invertGo zf targetZ lo hi xs last best
    | some z =>
      match last with
      | some (lx, lf) =>
        if (z - targetZ) * lf < 0 then
          brentq_rootfind
            (fun t => some ((zf t).getD 0 - targetZ))
            lx x (1 / 10 ^ 5) 100
        else
          invertGo zf targetZ lo hi xs (some (x, z - targetZ))
            (bestUpdate best x (z - targetZ))
      | none =>
        invertGo zf targetZ lo hi xs (some (x, z - targetZ))
          (bestUpdate best x (z - targetZ))

/-- `invert_zscore_function(z_func, target_z, lo, hi, samples)` (the
source default is `samples = 150`). -/
def invert_zscore_function (zf : ℚ → Option ℚ) (target_z lo hi : ℚ)
    (samples : ℕ) : ℚ :=
  invertGo zf target_z lo hi (linspace lo hi samples) none none

/-! ## Kejar Tumbuh module (modules/kejar_tumbuh.py) -/

/-- One measurement row: age in months, weight (bb, kg), height (tb, cm). -/
structure Meas where
  usia_bulan : ℚ
  bb : ℚ
  tb : ℚ
deriving DecidableEq

/-- The sort key used by `sorted(data_list, key=lambda x: x['usia_bulan'])`. -/
def byAge (a b : Meas) : Prop := a.usia_bulan ≤ b.usia_bulan

instance : DecidableRel byAge := fun a b =>
  inferInstanceAs (Decidable (a.usia_bulan ≤ b.usia_bulan))

instance : IsTotal Meas byAge := ⟨fun a b => le_total a.usia_bulan b.usia_bulan⟩

instance : IsTrans Meas byAge := ⟨fun _ _ _ h h' => le_trans h h'⟩

/-- Strict version of the age ordering, used to show that sorting a list
with pairwise-distinct ages has a unique result. -/
def byAgeLT (a b : Meas) : Prop := a.usia_bulan < b.usia_bulan

instance : IsAntisymm Meas byAgeLT :=
  ⟨fun a _ h h' => absurd (lt_trans h h') (lt_irrefl a.usia_bulan)⟩

/-- Round half to even (Python `round` tie behaviour), as an integer. -/
def roundHalfEven (q : ℚ) : ℤ :=
  let f := Int.floor q
  let r := q - f
  if r < 1 / 2 then f
  else if 1 / 2 < r then f + 1
  else if f % 2 = 0 then f else f + 1

/-- Python `round(q, ndigits)` on an exact rational. -/
def py_round (ndigits : ℕ) (q : ℚ) : ℚ :=
  (roundHalfEven (q * 10 ^ ndigits) : ℚ) / 10 ^ ndigits

/-- One velocity interval.  The display string
`f"{a:.1f} → {b:.1f} bulan"` is modelled by its two numeric endpoints
`periode_from` / `periode_to`. -/
structure Vel where
  periode_from : ℚ
  periode_to : ℚ
  delta_months : ℚ
  delta_bb : ℚ
  delta_tb : ℚ
  velocity_bb : ℚ
  velocity_tb : ℚ
  mid_age : ℚ
deriving DecidableEq

/-- `calculate_velocity(data1, data2)`: `None` when the age delta is not
positive. -/
def calculate_velocity (data1 data2 : Meas) : Option Vel :=
  let delta_months := data2.usia_bulan - data1.usia_bulan
  if delta_months ≤ 0 then none
  else
    let delta_bb := data2.bb - data1.bb
    let delta_tb := data2.tb - data1.tb
    some
      { periode_from := data1.usia_bulan
        periode_to := data2.usia_bulan
        delta_months := py_round 1 delta_months
        delta_bb := py_round 2 delta_bb
        delta_tb := py_round 1 delta_tb
        velocity_bb := py_round 3 (delta_bb / delta_months)
        velocity_tb := py_round 2 (delta_tb / delta_months)
        mid_age := (data1.usia_bulan + data2.usia_bulan) / 2 }

/-- Velocity reference bands for one age range and sex. -/
structure VelRef where
  weight_range : ℚ × ℚ
  height_range : ℚ × ℚ
  age_range : String
deriving DecidableEq

/-- `str(sex).upper().startswith(("M", "L"))`.  Python `str.upper` is
modelled character-wise by `Char.toUpper` (the ASCII inputs used here
make the two coincide); `startswith` on the two one-letter prefixes
inspects the first character. -/
def sexIsMale (sex : String) : Bool :=
  match sex.data.map Char.toUpper with
  | [] => false
  | c :: _ => c == 'M' || c == 'L'

/-- `get_velocity_reference(age_months, sex)`: the static
GROWTH_VELOCITY_REFERENCE table, selected by age band and sex. -/
def get_velocity_reference (age_months : ℚ) (sex : String) : VelRef :=
  let male := sexIsMale sex
  if age_months < 3 then
    { weight_range := if male then ((0.8 : ℚ), 1.3) else (0.7, 1.2)
      height_range := if male then ((3 : ℚ), 4) else (2.8, 3.8)
      age_range := "0_3" }
  else if age_months < 6 then
    { weight_range := if male then ((0.5 : ℚ), 0.9) else (0.4, 0.8)
      height_range := if male then ((2 : ℚ), 2.8) else (1.8, 2.6)
      age_range := "3_6" }
  else if age_months < 9 then
    { weight_range := if male then ((0.3 : ℚ), 0.6) else (0.3, 0.5)
      height_range := if male then ((1.3 : ℚ), 1.8) else (1.2, 1.7)
      age_range := "6_9" }
  else if age_months < 12 then
    { weight_range := if male then ((0.2 : ℚ), 0.5) else (0.2, 0.4)
      height_range := if male then ((1 : ℚ), 1.5) else (0.9, 1.4)
      age_range := "9_12" }
  else if age_months < 24 then
    { weight_range := if male then ((0.15 : ℚ), 0.35) else (0.15, 0.30)
      height_range := if male then ((0.8 : ℚ), 1.2) else (0.7, 1.1)
      age_range := "12_24" }
  else
    { weight_range := if male then ((0.1 : ℚ), 0.25) else (0.1, 0.20)
      height_range := if male then ((0.5 : ℚ), 0.8) else (0.5, 0.7)
      age_range := "24_60" }

/-- One velocity evaluation (status, color, emoji, message, severity). -/
structure Evaluation where
  status : String
  color : String
  emoji : String
  message : String
  severity : String
deriving DecidableEq

/-- `evaluate_velocity(velocity, reference_range, measure_type)`. -/
def evaluate_velocity (velocity : ℚ) (reference_range : ℚ × ℚ)
    (measure_type : String) : Evaluation :=
  let min_normal := reference_range.1
  let max_normal := reference_range.2
  if velocity < 0 then
    { status := "Penurunan", color := "#d32f2f", emoji := "🚨"
      message := "Terjadi PENURUNAN " ++ measure_type ++ "! Segera konsultasi ke dokter."
      severity := "critical" }
  else if velocity < min_normal * 0.5 then
    { status := "Sangat Lambat", color := "#e65100", emoji := "⚠️"
      message := "Pertumbuhan " ++ measure_type ++ " sangat lambat. Perlu evaluasi segera."
      severity := "warning" }
  else if velocity < min_normal then
    { status := "Lambat", color := "#f57c00", emoji := "📊"
      message := "Pertumbuhan " ++ measure_type ++ " di bawah rata-rata. Perlu perhatian."
      severity := "attention" }
  else if velocity ≤ max_normal then
    { status := "Normal", color := "#388e3c", emoji := "✅"
      message := "Pertumbuhan " ++ measure_type ++ " dalam rentang normal."
      severity := "normal" }
  else
    { status := "Cepat", color := "#1976d2", emoji := "📈"
      message := "Pertumbuhan " ++ measure_type ++ " di atas rata-rata."
      severity := "good" }

/-- One entry of the evaluations list: the interval together with its
reference bands and the two gradings. -/
structure EvalRec where
  vel : Vel
  reference : VelRef
  bb_evaluation : Evaluation
  tb_evaluation : Evaluation
deriving DecidableEq

/-- The summary block of a successful analysis. -/
structure Summary where
  total_measurements : ℕ
  total_periods : ℕ
  total_months : ℚ
  total_delta_bb : ℚ
  total_delta_tb : ℚ
  avg_velocity_bb : ℚ
  avg_velocity_tb : ℚ
  overall_status : String
  overall_message : String
deriving DecidableEq

/-- The result dictionary of `analyze_growth_velocity`: either
`success: False` with an error message, or the full payload. -/
inductive AnalysisResult where
  | failure (error : String)
  | success (data : List Meas) (velocities : List Vel)
      (evaluations : List EvalRec) (summary : Summary) (gender : String)
deriving DecidableEq

/-- The velocity list built from the sorted data: one
`calculate_velocity` call per adjacent pair, dropping `None` results. -/
def velocitiesOf (sorted_data : List Meas) : List Vel :=
  (sorted_data.zip sorted_data.tail).filterMap fun p => calculate_velocity p.1 p.2

/-- `analyze_growth_velocity(data_list, gender)`. -/
def analyze_growth_velocity (data_list : List Meas) (gender : String) :
    AnalysisResult :=
  if data_list.length < 2 then
    AnalysisResult.failure "Minimal 2 pengukuran diperlukan untuk analisis"
  else
    let sorted_data := List.insertionSort byAge data_list
    let velocities := velocitiesOf sorted_data
    if velocities.isEmpty then
      AnalysisResult.failure "Tidak dapat menghitung velocity (periksa urutan usia)"
    else
      let evaluations := velocities.map fun vel =>
        let ref := get_velocity_reference vel.mid_age gender
        { vel := vel
          reference := ref
          bb_evaluation := evaluate_velocity vel.velocity_bb ref.weight_range "berat badan"
          tb_evaluation := evaluate_velocity vel.velocity_tb ref.height_range "tinggi badan" }
      let avg_velocity_bb := (velocities.map Vel.velocity_bb).sum / (velocities.length : ℚ)
      let avg_velocity_tb := (velocities.map Vel.velocity_tb).sum / (velocities.length : ℚ)
      let first := sorted_data.headD ⟨0, 0, 0⟩
      let last := sorted_data.getLastD ⟨0, 0, 0⟩
      let critical_count := evaluations.countP fun e =>
        e.bb_evaluation.severity == "critical" || e.tb_evaluation.severity == "critical"
      let warning_count := evaluations.countP fun e =>
        e.bb_evaluation.severity == "warning" || e.tb_evaluation.severity == "warning"
      let overall :=
        if 0 < critical_count then
          ("critical",
           "⚠️ PERHATIAN: Terdeteksi penurunan atau pertumbuhan sangat lambat. Segera konsultasi ke dokter!")
        else if 0 < warning_count then
          ("warning",
           "📊 Perlu perhatian: Beberapa periode menunjukkan pertumbuhan di bawah rata-rata.")
        else
          ("normal",
           "✅ Pertumbuhan keseluruhan dalam rentang normal. Pertahankan pola makan dan stimulasi.")
      AnalysisResult.success sorted_data velocities evaluations
        { total_measurements := sorted_data.length
          total_periods := velocities.length
          total_months := py_round 1 (last.usia_bulan - first.usia_bulan)
          total_delta_bb := py_round 2 (last.bb - first.bb)
          total_delta_tb := py_round 1 (last.tb - first.tb)
          avg_velocity_bb := py_round 3 avg_velocity_bb
          avg_velocity_tb := py_round 2 avg_velocity_tb
          overall_status := overall.1
          overall_message := overall.2 } gender

/-! ## Specification-side definitions used by the claims -/

/-- The five weight-for-height bands exactly as the claim states them. -/
def whzBand (i : Fin 5) (z : ℚ) : Prop :=
  match i.val with
  | 0 => z < -3
  | 1 => -3 ≤ z ∧ z < -2
  | 2 => -2 ≤ z ∧ z ≤ 2
  | 3 => 2 < z ∧ z ≤ 3
  | _ => 3 < z

/-- Permenkes 2020 whz label of each band. -/
def permenkesWhzLabel (i : Fin 5) : String :=
  match i.val with
  | 0 => "Gizi Buruk (Severely Wasted)"
  | 1 => "Gizi Kurang (Wasted)"
  | 2 => "Gizi Baik (Normal)"
  | 3 => "Berisiko Gizi Lebih (Possible Risk of Overweight)"
  | _ => "Gizi Lebih (Overweight)"

/-- WHO-standards whz label of each band. -/
def whoWhzLabel (i : Fin 5) : String :=
  match i.val with
  | 0 => "Severely wasted"
  | 1 => "Wasted"
  | 2 => "Normal"
  | 3 => "Risk of overweight"
  | _ => "Overweight"

/-- The band index the code's if-chain computes for a finite whz. -/
def whzIdx (z : ℚ) : Fin 5 :=
  if z < -3 then 0 else if z < -2 then 1 else if z ≤ 2 then 2
  else if z ≤ 3 then 3 else 4

/-- The label dictionary between the two taxonomies: each Permenkes 2020
label paired with the WHO-standards label of the same numeric band. -/
def permenkesToWho (s : String) : String :=
  if s = "Berat Badan Sangat Kurang" then "Severely underweight"
  else if s = "Berat Badan Kurang" then "Underweight"
  else if s = "Berat Badan Normal" then "Normal weight"
  else if s = "Risiko Berat Badan Lebih" then "Overweight"
  else if s = "Sangat Pendek (Severely Stunted)" then "Severely stunted"
  else if s = "Pendek (Stunted)" then "Stunted"
  else if s = "Tinggi Badan Normal" then "Normal height"
  else if s = "Tinggi Badan Berlebih" then "Tall"
  else if s = "Gizi Buruk (Severely Wasted)" then "Severely wasted"
  else if s = "Gizi Kurang (Wasted)" then "Wasted"
  else if s = "Gizi Baik (Normal)" then "Normal"
  else if s = "Berisiko Gizi Lebih (Possible Risk of Overweight)" then "Risk of overweight"
  else if s = "Gizi Lebih (Overweight)" then "Overweight"
  else if s = "Obesitas (Obese)" then "Obese"
  else if s = "Mikrosefali (perlu evaluasi)" then "Microcephaly"
  else if s = "Makrosefali (perlu evaluasi)" then "Macrocephaly"
  else if s = "Normal" then "Normal"
  else if s = "Data Tidak Tersedia" then "N/A"
  else s

/-- A sample calculator instance, used only to instantiate witnesses. -/
def sampleCalc : Calc :=
  { wfa := fun _ _ _ => ZRes.val 0
    lhfa := fun _ _ _ => ZRes.val 0
    wfl := fun _ _ _ _ => ZRes.val 0
    bmifa := fun _ _ _ => ZRes.val 0
    hcfa := fun _ _ _ => ZRes.val 0 }


/-- The usable samples of the inversion loop: each sample point x whose
z is non-null, paired with its residual f = z - targetZ. -/
def usableSamples (zf : ℚ → Option ℚ) (targetZ : ℚ) (xs : List ℚ) :
    List (ℚ × ℚ) :=
  xs.filterMap fun x => (zf x).map fun z => (x, z - targetZ)

/-- Folding the best-sample update over a list of usable samples,
starting from a current best pair (best_x, best_abs). -/
def bestOf : List (ℚ × ℚ) → ℚ × ℚ → ℚ × ℚ
  | [], b => b
  | p :: rest, b => bestOf rest (if |p.2| < b.2 then (p.1, |p.2|) else b)

/-- The value the loop returns when it never finds a bracket: the first
usable sample seeds the best pair and the rest are folded in; with no
usable sample at all, the domain midpoint. -/
def invertFallback (lo hi : ℚ) : List (ℚ × ℚ) → ℚ
  | [] => (lo + hi) / 2
  | p :: rest => (bestOf rest (p.1, |p.2|)).1

/-- Instrumented `brentqLoop`: also counts the loop iterations executed. -/
def brentqLoopCount (f : ℚ → Option ℚ) (xtol : ℚ) :
    ℕ → ℚ × ℚ → ℚ × ℚ → ℚ × ℕ
  | 0, (a, _), (b, _) => ((a + b) / 2, 0)
  | fuel + 1, (a, fa), (b, fb) =>
    match f ((a + b) / 2) with
    | none => ((a + b) / 2, 1)
    | some fm =>
      if |fm| < 1 / 10 ^ 10 ∨ (b - a) / 2 < xtol then ((a + b) / 2, 1)
      else if fa * fm < 0 then
        ((brentqLoopCount f xtol fuel (a, fa) ((a + b) / 2, fm)).1,
         (brentqLoopCount f xtol fuel (a, fa) ((a + b) / 2, fm)).2 + 1)
      else
        ((brentqLoopCount f xtol fuel ((a + b) / 2, fm) (b, fb)).1,
         (brentqLoopCount f xtol fuel ((a + b) / 2, fm) (b, fb)).2 + 1)

/-- Instrumented `brentq_rootfind`: result paired with the number of
bisection iterations executed. -/
def brentq_rootfindCount (f : ℚ → Option ℚ) (a b xtol : ℚ) (maxiter : ℕ) :
    ℚ × ℕ :=
  match f a, f b with
  | none, _ => ((a + b) / 2, 0)
  | some _, none => ((a + b) / 2, 0)
  | some fa, some fb =>
    if |fa| < 1 / 10 ^ 10 then (a, 0)
    else if |fb| < 1 / 10 ^ 10 then (b, 0)
    else if 0 < fa * fb then ((a + b) / 2, 0)
    else brentqLoopCount f xtol maxiter (a, fa) (b, fb)

/-- Instrumented `invertGo`: result paired with the number of sample
points at which z_func was evaluated. -/
def invertGoCount (zf : ℚ → Option ℚ) (targetZ lo hi : ℚ) :
    List ℚ → Option (ℚ × ℚ) → Option (ℚ × ℚ) → ℚ × ℕ
  | [], _, best =>
    (match best with
     | some (bx, _) => bx
     | none => (lo + hi) / 2, 0)
  | x :: xs, last, best =>
    match zf x with
    | none =>
      ((invertGoCount zf targetZ lo hi xs last best).1,
       (invertGoCount zf targetZ lo hi xs last best).2 + 1)
    | some z =>
      match last with
      | some (lx, lf) =>
        if (z - targetZ) * lf < 0 then
          (brentq_rootfind (fun t => some ((zf t).getD 0 - targetZ))
            lx x (1 / 10 ^ 5) 100, 1)
        else
          ((invertGoCount zf targetZ lo hi xs (some (x, z - targetZ))
              (bestUpdate best x (z - targetZ))).1,
           (invertGoCount zf targetZ lo hi xs (some (x, z - targetZ))
              (bestUpdate best x (z - targetZ))).2 + 1)
      | none =>
        ((invertGoCount zf targetZ lo hi xs (some (x, z - targetZ))
            (bestUpdate best x (z - targetZ))).1,
         (invertGoCount zf targetZ lo hi xs (some (x, z - targetZ))
            (bestUpdate best x (z - targetZ))).2 + 1)

/-- Instrumented `invert_zscore_function`: result paired with the number
of sample evaluations. -/
def invert_zscore_functionCount (zf : ℚ → Option ℚ) (target_z lo hi : ℚ)
    (samples : ℕ) : ℚ × ℕ :=
  invertGoCount zf target_z lo hi (linspace lo hi samples) none none

/-- A z-score function with no root of z = 0 in [0, 1] and no sign
change, used only to instantiate witnesses. -/
def zfShift (x : ℚ) : Option ℚ := some (x + 10)

/-- The evaluations list of a successful analysis (empty for a failure). -/
def resultEvaluations : AnalysisResult → List EvalRec
  | AnalysisResult.success _ _ evs _ _ => evs
  | AnalysisResult.failure _ => []

/-- The overall status and message of a successful analysis. -/
def resultOverall : AnalysisResult → Option (String × String)
  | AnalysisResult.success _ _ _ s _ => some (s.overall_status, s.overall_message)
  | AnalysisResult.failure _ => none

/-- The velocities list of a successful analysis. -/
def resultVelocities : AnalysisResult → Option (List Vel)
  | AnalysisResult.success _ v _ _ _ => some v
  | AnalysisResult.failure _ => none

/-- Whether the analysis succeeded. -/
def isSuccess : AnalysisResult → Bool
  | AnalysisResult.success _ _ _ _ _ => true
  | AnalysisResult.failure _ => false

/-- Growth data with one interval whose weight velocity 0.08 kg/month
falls in the attention band for a male at mid-age 35 months while the
height velocity 0.6 cm/month is normal. -/
def c6data : List Meas := [⟨30, 10, 90⟩, ⟨40, 10.8, 96⟩]

/-- Growth data with one interval in the normal bands on both measures. -/
def c6wdata : List Meas := [⟨0, 3, 50⟩, ⟨1, 4, 53.5⟩]

/-- Measurement list with a duplicated age, and the same list with its
first two entries swapped. -/
def c8a : List Meas := [⟨1, 5, 50⟩, ⟨1, 6, 60⟩, ⟨2, 7, 70⟩]

/-- The permutation of `c8a` swapping the two age-1 rows. -/
def c8b : List Meas := [⟨1, 6, 60⟩, ⟨1, 5, 50⟩, ⟨2, 7, 70⟩]

/-! ## Claim C1: the BMI-for-age edge between the two taxonomies -/

unseal Rat.mul Rat.add Rat.sub Rat.inv Rat.ofScientific in
/-- C1 (counterexample): at baz = 3/2 (so 1 < baz ≤ 2) the plain WHO
classifier does NOT return its Normal label: its BMI-for-age normal band
also ends at 1, and it returns the risk-of-overweight label, agreeing
with Permenkes 2020. -/
theorem C1_counterexample :
    permenkes_baz (some (3 / 2)) = "Berisiko Gizi Lebih (Possible Risk of Overweight)" ∧
    who_baz (some (3 / 2)) = "Risk of overweight" ∧
    who_baz (some (3 / 2)) ≠ "Normal" := by
  refine ⟨by decide, by decide, by decide⟩

/-- C1 (amended): both taxonomies bound the BMI-for-age normal band by
baz ≤ 1; for every z with 1 < z ≤ 2 the two classifiers agree on the
band, each returning its risk-of-overweight label. -/
theorem C1_theorem (z : ℚ) (h1 : 1 < z) (h2 : z ≤ 2) :
    permenkes_baz (some z) = "Berisiko Gizi Lebih (Possible Risk of Overweight)" ∧
    who_baz (some z) = "Risk of overweight" := by
  simp only [permenkes_baz, who_baz]
  split_ifs <;> first | exact ⟨rfl, rfl⟩ | linarith

/-- C1 witness: the amended statement instantiated at z = 3/2. -/
theorem C1_witness :
    (1 : ℚ) < 3 / 2 ∧ (3 : ℚ) / 2 ≤ 2 ∧
    (permenkes_baz (some (3 / 2)) = "Berisiko Gizi Lebih (Possible Risk of Overweight)" ∧
     who_baz (some (3 / 2)) = "Risk of overweight") :=
  ⟨by norm_num, by norm_num, C1_theorem (3 / 2) (by norm_num) (by norm_num)⟩

/-! ## Claim C4: the weight-for-height bands -/

lemma whzBand_whzIdx (z : ℚ) : whzBand (whzIdx z) z := by
  unfold whzIdx
  split_ifs with h1 h2 h3 h4
  · exact h1
  · exact ⟨not_lt.mp h1, h2⟩
  · exact ⟨not_lt.mp h2, h3⟩
  · exact ⟨not_le.mp h3, h4⟩
  · exact not_le.mp h4

lemma whzBand_eq_whzIdx {z : ℚ} {i : Fin 5} (h : whzBand i z) : i = whzIdx z := by
  unfold whzIdx
  fin_cases i <;> simp only [whzBand] at h <;>
    (try obtain ⟨ha, hb⟩ := h) <;>
    split_ifs <;>
    first | rfl | (exfalso; linarith)

/-- C4: the weight-for-height bands are exactly z < -3, [-3,-2), [-2,2],
(2,3], (3,∞) under both taxonomies; they partition the line so each
finite whz gets exactly one band label, and a null whz gets the fixed
unavailable label of each taxonomy. -/
theorem C4_theorem :
    (∀ z : ℚ, ∃! i : Fin 5, whzBand i z) ∧
    (∀ (z : ℚ) (i : Fin 5), whzBand i z →
      permenkes_whz (some z) = permenkesWhzLabel i ∧
      who_whz (some z) = whoWhzLabel i) ∧
    permenkes_whz none = "Data Tidak Tersedia" ∧
    who_whz none = "N/A" := by
  refine ⟨fun z => ⟨whzIdx z, whzBand_whzIdx z, fun j hj => whzBand_eq_whzIdx hj⟩,
    fun z i h => ?_, rfl, rfl⟩
  have hi := whzBand_eq_whzIdx h
  subst hi
  simp only [permenkes_whz, who_whz, whzIdx]
  split_ifs <;> exact ⟨rfl, rfl⟩

/-- C4 witness: z = 0 lies in band 2 and both classifiers return their
normal label there; the null case returns the unavailable labels. -/
theorem C4_witness :
    whzBand 2 0 ∧
    (permenkes_whz (some 0) = permenkesWhzLabel 2 ∧
     who_whz (some 0) = whoWhzLabel 2) :=
  ⟨by norm_num [whzBand], C4_theorem.2.1 0 2 (by norm_num [whzBand])⟩

/-! ## Claim C10: band-for-band equivalence of the two classifiers -/

lemma who_waz_eq_map (oz : Option ℚ) :
    who_waz oz = permenkesToWho (permenkes_waz oz) := by
  cases oz with
  | none => decide
  | some z => simp only [who_waz, permenkes_waz]; split_ifs <;> decide

lemma who_haz_eq_map (oz : Option ℚ) :
    who_haz oz = permenkesToWho (permenkes_haz oz) := by
  cases oz with
  | none => decide
  | some z => simp only [who_haz, permenkes_haz]; split_ifs <;> decide

lemma who_whz_eq_map (oz : Option ℚ) :
    who_whz oz = permenkesToWho (permenkes_whz oz) := by
  cases oz with
  | none => decide
  | some z => simp only [who_whz, permenkes_whz]; split_ifs <;> decide

lemma who_baz_eq_map (oz : Option ℚ) :
    who_baz oz = permenkesToWho (permenkes_baz oz) := by
  cases oz with
  | none => decide
  | some z => simp only [who_baz, permenkes_baz]; split_ifs <;> decide

lemma who_hcz_eq_map (oz : Option ℚ) :
    who_hcz oz = permenkesToWho (permenkes_hcz oz) := by
  cases oz with
  | none => decide
  | some z => simp only [who_hcz, permenkes_hcz]; split_ifs <;> decide

/-- C10: for every z-score set the WHO-standards output is the Permenkes
2020 output translated label-for-label by the fixed dictionary
`permenkesToWho` (so every indicator, including baz with its normal
bound 1 and hcz with its |z| ≤ 2 rule, falls in the same numeric band
under both taxonomies), and the dictionary is injective on each
indicator's label set (so the bands themselves coincide, the outputs
differing only in wording). -/
theorem C10_theorem :
    (∀ z : ZScores, classify_who_standards z =
      { waz := permenkesToWho (classify_permenkes_2020 z).waz
        haz := permenkesToWho (classify_permenkes_2020 z).haz
        whz := permenkesToWho (classify_permenkes_2020 z).whz
        baz := permenkesToWho (classify_permenkes_2020 z).baz
        hcz := permenkesToWho (classify_permenkes_2020 z).hcz }) ∧
    List.Pairwise (fun a b => permenkesToWho a ≠ permenkesToWho b)
      ["Berat Badan Sangat Kurang", "Berat Badan Kurang", "Berat Badan Normal",
       "Risiko Berat Badan Lebih", "Data Tidak Tersedia"] ∧
    List.Pairwise (fun a b => permenkesToWho a ≠ permenkesToWho b)
      ["Sangat Pendek (Severely Stunted)", "Pendek (Stunted)", "Tinggi Badan Normal",
       "Tinggi Badan Berlebih", "Data Tidak Tersedia"] ∧
    List.Pairwise (fun a b => permenkesToWho a ≠ permenkesToWho b)
      ["Gizi Buruk (Severely Wasted)", "Gizi Kurang (Wasted)", "Gizi Baik (Normal)",
       "Berisiko Gizi Lebih (Possible Risk of Overweight)", "Gizi Lebih (Overweight)",
       "Obesitas (Obese)", "Data Tidak Tersedia"] ∧
    List.Pairwise (fun a b => permenkesToWho a ≠ permenkesToWho b)
      ["Normal", "Mikrosefali (perlu evaluasi)", "Makrosefali (perlu evaluasi)",
       "Data Tidak Tersedia"] := by
  refine ⟨fun z => ?_, by decide, by decide, by decide, by decide⟩
  simp only [classify_who_standards, classify_permenkes_2020, who_waz_eq_map,
    who_haz_eq_map, who_whz_eq_map, who_baz_eq_map, who_hcz_eq_map]

/-! ## Claim C5: shape and degradation of calculate_all_zscores -/

/-- C5: `calculate_all_zscores` always returns the five-field record
(totality of the Lean function); when the calculator is unavailable all
five fields are null; an indicator whose raw input is missing is null
(weight gates waz/whz/baz, height gates haz/whz/baz, head circumference
gates hcz); and only finite service values survive `safe_z_calc` -- a
NaN, infinite, null or raised result is clamped to null. -/
theorem C5_theorem :
    (∀ (sex : String) (age : ℚ) (w h hc : Option ℚ),
      calculate_all_zscores none sex age w h hc = ⟨none, none, none, none, none⟩) ∧
    (∀ (calcO : Option Calc) (sex : String) (age : ℚ) (h hc : Option ℚ),
      (calculate_all_zscores calcO sex age none h hc).waz = none ∧
      (calculate_all_zscores calcO sex age none h hc).whz = none ∧
      (calculate_all_zscores calcO sex age none h hc).baz = none) ∧
    (∀ (calcO : Option Calc) (sex : String) (age : ℚ) (w hc : Option ℚ),
      (calculate_all_zscores calcO sex age w none hc).haz = none ∧
      (calculate_all_zscores calcO sex age w none hc).whz = none ∧
      (calculate_all_zscores calcO sex age w none hc).baz = none) ∧
    (∀ (calcO : Option Calc) (sex : String) (age : ℚ) (w h : Option ℚ),
      (calculate_all_zscores calcO sex age w h none).hcz = none) ∧
    (∀ (calcO : Option Calc) (res : ZRes) (q : ℚ),
      safe_z_calc calcO res = some q → res = ZRes.val q) := by
  refine ⟨fun _ _ _ _ _ => rfl, ?_, ?_, ?_, ?_⟩
  · intro calcO sex age h hc
    cases calcO <;> exact ⟨rfl, rfl, rfl⟩
  · intro calcO sex age w hc
    cases calcO with
    | none => exact ⟨rfl, rfl, rfl⟩
    | some c => cases w <;> exact ⟨rfl, rfl, rfl⟩
  · intro calcO sex age w h
    cases calcO with
    | none => rfl
    | some c => rfl
  · intro calcO res q hsome
    cases calcO with
    | none => simp [safe_z_calc] at hsome
    | some c =>
      cases res <;> simp [safe_z_calc] at hsome
      exact congrArg ZRes.val hsome

/-- C5 witness: the clamping clause applied at a concrete finite result. -/
theorem C5_witness :
    safe_z_calc (some sampleCalc) (ZRes.val 1) = some 1 ∧ ZRes.val 1 = ZRes.val 1 :=
  ⟨rfl, C5_theorem.2.2.2.2 (some sampleCalc) (ZRes.val 1) 1 rfl⟩

/-! ## Claim C3: the inversion result always lies in [lo, hi] -/

lemma mid_mem {lo hi a b : ℚ} (ha : a ∈ Set.Icc lo hi) (hb : b ∈ Set.Icc lo hi) :
    (a + b) / 2 ∈ Set.Icc lo hi := by
  obtain ⟨ha1, ha2⟩ := ha
  obtain ⟨hb1, hb2⟩ := hb
  exact ⟨by linarith, by linarith⟩

lemma brentqLoop_mem (f : ℚ → Option ℚ) (xtol : ℚ) :
    ∀ (fuel : ℕ) (a fa b fb : ℚ) {lo hi : ℚ},
      a ∈ Set.Icc lo hi → b ∈ Set.Icc lo hi →
      brentqLoop f xtol fuel (a, fa) (b, fb) ∈ Set.Icc lo hi := by
  intro fuel
  induction fuel with
  | zero =>
    intro a fa b fb lo hi ha hb
    exact mid_mem ha hb
  | succ n ih =>
    intro a fa b fb lo hi ha hb
    cases hf : f ((a + b) / 2) with
    | none =>
      simp only [brentqLoop, hf]
      exact mid_mem ha hb
    | some fm =>
      simp only [brentqLoop, hf]
      split_ifs
      · exact mid_mem ha hb
      · exact ih a fa ((a + b) / 2) fm ha (mid_mem ha hb)
      · exact ih ((a + b) / 2) fm b fb (mid_mem ha hb) hb

lemma brentq_rootfind_mem (f : ℚ → Option ℚ) (a b xtol : ℚ) (maxiter : ℕ)
    {lo hi : ℚ} (ha : a ∈ Set.Icc lo hi) (hb : b ∈ Set.Icc lo hi) :
    brentq_rootfind f a b xtol maxiter ∈ Set.Icc lo hi := by
  cases hfa : f a with
  | none =>
    simp only [brentq_rootfind, hfa]
    exact mid_mem ha hb
  | some fa =>
    cases hfb : f b with
    | none =>
      simp only [brentq_rootfind, hfa, hfb]
      exact mid_mem ha hb
    | some fb =>
      simp only [brentq_rootfind, hfa, hfb]
      split_ifs
      · exact ha
      · exact hb
      · exact mid_mem ha hb
      · exact brentqLoop_mem f xtol maxiter a fa b fb ha hb

lemma linspace_subset {lo hi : ℚ} (h : lo ≤ hi) (n : ℕ) :
    ∀ x ∈ linspace lo hi n, x ∈ Set.Icc lo hi := by
  intro x hx
  unfold linspace at hx
  split_ifs at hx with h0 h1
  · simp at hx
  · simp at hx
    rw [hx]
    exact Set.left_mem_Icc.mpr h
  · rw [List.mem_map] at hx
    obtain ⟨i, hmem, rfl⟩ := hx
    rw [List.mem_range] at hmem
    have hn2 : 2 ≤ n := by omega
    have hd : (0 : ℚ) < (n : ℚ) - 1 := by
      have h2 : (2 : ℚ) ≤ (n : ℚ) := by exact_mod_cast hn2
      linarith
    have hile : i ≤ n - 1 := by omega
    have hiq : (i : ℚ) ≤ (n : ℚ) - 1 := by
      have hc : ((i : ℕ) : ℚ) ≤ ((n - 1 : ℕ) : ℚ) := by exact_mod_cast hile
      rwa [Nat.cast_sub (by omega : 1 ≤ n), Nat.cast_one] at hc
    have hsub : (0 : ℚ) ≤ hi - lo := by linarith
    have hnum : 0 ≤ (i : ℚ) * (hi - lo) := mul_nonneg (Nat.cast_nonneg i) hsub
    refine Set.mem_Icc.mpr ⟨?_, ?_⟩
    · have hq : 0 ≤ (i : ℚ) * (hi - lo) / ((n : ℚ) - 1) := by positivity
      linarith
    · have key : (i : ℚ) * (hi - lo) / ((n : ℚ) - 1) ≤ hi - lo := by
        rw [div_le_iff₀ hd]
        nlinarith [mul_le_mul_of_nonneg_right hiq hsub]
      linarith

lemma invertGo_mem (zf : ℚ → Option ℚ) (t : ℚ) {lo hi : ℚ} (h : lo ≤ hi) :
    ∀ (xs : List ℚ), (∀ x ∈ xs, x ∈ Set.Icc lo hi) →
    ∀ (last best : Option (ℚ × ℚ)),
      (∀ p, last = some p → p.1 ∈ Set.Icc lo hi) →
      (∀ p, best = some p → p.1 ∈ Set.Icc lo hi) →
      invertGo zf t lo hi xs last best ∈ Set.Icc lo hi := by
  intro xs
  induction xs with
  | nil =>
    intro _ last best _ hbest
    simp only [invertGo]
    cases best with
    | none => exact mid_mem (Set.left_mem_Icc.mpr h) (Set.right_mem_Icc.mpr h)
    | some p =>
      obtain ⟨bx, ba⟩ := p
      exact hbest (bx, ba) rfl
  | cons x xs ih =>
    intro hxs last best hlast hbest
    have hxmem : x ∈ Set.Icc lo hi := hxs x (List.mem_cons_self x xs)
    have hxs' : ∀ y ∈ xs, y ∈ Set.Icc lo hi :=
      fun y hy => hxs y (List.mem_cons_of_mem x hy)
    cases hz : zf x with
    | none =>
      simp only [invertGo, hz]
      exact ih hxs' last best hlast hbest
    | some z =>
      have hbu : ∀ p, bestUpdate best x (z - t) = some p → p.1 ∈ Set.Icc lo hi := by
        intro p hp
        cases best with
        | none =>
          simp only [bestUpdate] at hp
          injection hp with hp
          subst hp
          exact hxmem
        | some b0 =>
          obtain ⟨bx, ba⟩ := b0
          simp only [bestUpdate] at hp
          split_ifs at hp <;> (injection hp with hp; subst hp)
          · exact hxmem
          · exact hbest (bx, ba) rfl
      have hl' : ∀ p, (some (x, z - t) : Option (ℚ × ℚ)) = some p →
          p.1 ∈ Set.Icc lo hi := by
        intro p hp
        injection hp with hp
        subst hp
        exact hxmem
      cases last with
      | none =>
        simp only [invertGo, hz]
        exact ih hxs' _ _ hl' hbu
      | some l0 =>
        obtain ⟨lx, lf⟩ := l0
        simp only [invertGo, hz]
        split_ifs
        · exact brentq_rootfind_mem _ lx x _ 100 (hlast (lx, lf) rfl) hxmem
        · exact ih hxs' _ _ hl' hbu

/-- C3: for every z-score function, target, bound pair with lo ≤ hi and
sample count, the value returned by `invert_zscore_function` lies in the
closed interval [lo, hi], whichever path produced it (bisection
refinement, best-sample fallback, or midpoint fallback). -/
theorem C3_theorem (zf : ℚ → Option ℚ) (t lo hi : ℚ) (n : ℕ) (h : lo ≤ hi) :
    invert_zscore_function zf t lo hi n ∈ Set.Icc lo hi :=
  invertGo_mem zf t h (linspace lo hi n) (linspace_subset h n) none none
    (fun p hp => by cases hp) (fun p hp => by cases hp)

/-- C3 witness: the bound at a concrete always-null curve on [0, 2]. -/
theorem C3_witness :
    (0 : ℚ) ≤ 2 ∧
    invert_zscore_function (fun _ => none) 0 0 2 5 ∈ Set.Icc (0 : ℚ) 2 :=
  ⟨by norm_num, C3_theorem (fun _ => none) 0 0 2 5 (by norm_num)⟩

/-! ## Claim C9: boundedness of the numeric routines -/

lemma brentqLoopCount_le (f : ℚ → Option ℚ) (xtol : ℚ) :
    ∀ (fuel : ℕ) (p q : ℚ × ℚ),
      (brentqLoopCount f xtol fuel p q).2 ≤ fuel := by
  intro fuel
  induction fuel with
  | zero =>
    intro p q
    obtain ⟨a, fa⟩ := p
    obtain ⟨b, fb⟩ := q
    simp [brentqLoopCount]
  | succ n ih =>
    intro p q
    obtain ⟨a, fa⟩ := p
    obtain ⟨b, fb⟩ := q
    cases hf : f ((a + b) / 2) with
    | none => simp [brentqLoopCount, hf]
    | some fm =>
      simp only [brentqLoopCount, hf]
      split_ifs
      · simp
      · have := ih (a, fa) ((a + b) / 2, fm)
        simpa using Nat.succ_le_succ this
      · have := ih ((a + b) / 2, fm) (b, fb)
        simpa using Nat.succ_le_succ this

lemma brentqLoopCount_fst (f : ℚ → Option ℚ) (xtol : ℚ) :
    ∀ (fuel : ℕ) (p q : ℚ × ℚ),
      (brentqLoopCount f xtol fuel p q).1 = brentqLoop f xtol fuel p q := by
  intro fuel
  induction fuel with
  | zero =>
    intro p q
    obtain ⟨a, fa⟩ := p
    obtain ⟨b, fb⟩ := q
    simp [brentqLoopCount, brentqLoop]
  | succ n ih =>
    intro p q
    obtain ⟨a, fa⟩ := p
    obtain ⟨b, fb⟩ := q
    cases hf : f ((a + b) / 2) with
    | none => simp [brentqLoopCount, brentqLoop, hf]
    | some fm =>
      simp only [brentqLoopCount, brentqLoop, hf]
      split_ifs
      · rfl
      · exact ih (a, fa) ((a + b) / 2, fm)
      · exact ih ((a + b) / 2, fm) (b, fb)

lemma brentq_rootfindCount_le (f : ℚ → Option ℚ) (a b xtol : ℚ) (maxiter : ℕ) :
    (brentq_rootfindCount f a b xtol maxiter).2 ≤ maxiter := by
  cases hfa : f a with
  | none => simp [brentq_rootfindCount, hfa]
  | some fa =>
    cases hfb : f b with
    | none => simp [brentq_rootfindCount, hfa, hfb]
    | some fb =>
      simp only [brentq_rootfindCount, hfa, hfb]
      split_ifs <;>
        first
          | simp
          | exact brentqLoopCount_le f xtol maxiter (a, fa) (b, fb)

lemma brentq_rootfindCount_fst (f : ℚ → Option ℚ) (a b xtol : ℚ) (maxiter : ℕ) :
    (brentq_rootfindCount f a b xtol maxiter).1 = brentq_rootfind f a b xtol maxiter := by
  cases hfa : f a with
  | none => simp [brentq_rootfindCount, brentq_rootfind, hfa]
  | some fa =>
    cases hfb : f b with
    | none => simp [brentq_rootfindCount, brentq_rootfind, hfa, hfb]
    | some fb =>
      simp only [brentq_rootfindCount, brentq_rootfind, hfa, hfb]
      split_ifs <;>
        first
          | rfl
          | exact brentqLoopCount_fst f xtol maxiter (a, fa) (b, fb)

lemma invertGoCount_le (zf : ℚ → Option ℚ) (t lo hi : ℚ) :
    ∀ (xs : List ℚ) (last best : Option (ℚ × ℚ)),
      (invertGoCount zf t lo hi xs last best).2 ≤ xs.length := by
  intro xs
  induction xs with
  | nil =>
    intro last best
    simp [invertGoCount]
  | cons x xs ih =>
    intro last best
    cases hz : zf x with
    | none =>
      simp only [invertGoCount, hz, List.length_cons]
      exact Nat.succ_le_succ (ih last best)
    | some z =>
      cases last with
      | none =>
        simp only [invertGoCount, hz, List.length_cons]
        exact Nat.succ_le_succ (ih _ _)
      | some l0 =>
        obtain ⟨lx, lf⟩ := l0
        simp only [invertGoCount, hz, List.length_cons]
        split_ifs
        · simp
        · exact Nat.succ_le_succ (ih _ _)

lemma invertGoCount_fst (zf : ℚ → Option ℚ) (t lo hi : ℚ) :
    ∀ (xs : List ℚ) (last best : Option (ℚ × ℚ)),
      (invertGoCount zf t lo hi xs last best).1 = invertGo zf t lo hi xs last best := by
  intro xs
  induction xs with
  | nil =>
    intro last best
    cases best with
    | none => simp [invertGoCount, invertGo]
    | some p =>
      obtain ⟨bx, ba⟩ := p
      simp [invertGoCount, invertGo]
  | cons x xs ih =>
    intro last best
    cases hz : zf x with
    | none =>
      simp only [invertGoCount, invertGo, hz]
      exact ih last best
    | some z =>
      cases last with
      | none =>
        simp only [invertGoCount, invertGo, hz]
        exact ih _ _
      | some l0 =>
        obtain ⟨lx, lf⟩ := l0
        simp only [invertGoCount, invertGo, hz]
        split_ifs
        · rfl
        · exact ih _ _

lemma linspace_length (lo hi : ℚ) (n : ℕ) : (linspace lo hi n).length = n := by
  unfold linspace
  split_ifs with h0 h1
  · simp [h0]
  · simp [h1]
  · simp

/-- C9: both numeric routines are total Lean functions (they always
return a value); the instrumented `brentq_rootfind` with its hard cap
maxiter = 100 executes at most 100 bisection iterations and computes the
same value as the plain routine; the instrumented
`invert_zscore_function` evaluates the z-score function at no more than
`samples` sample points (the source default being 150) and computes the
same value as the plain routine. -/
theorem C9_theorem :
    ∀ (f : ℚ → Option ℚ) (a b xtol : ℚ) (zf : ℚ → Option ℚ)
      (t lo hi : ℚ) (n : ℕ),
      (brentq_rootfindCount f a b xtol 100).2 ≤ 100 ∧
      (brentq_rootfindCount f a b xtol 100).1 = brentq_rootfind f a b xtol 100 ∧
      (invert_zscore_functionCount zf t lo hi n).2 ≤ n ∧
      (invert_zscore_functionCount zf t lo hi n).1 =
        invert_zscore_function zf t lo hi n := by
  intro f a b xtol zf t lo hi n
  refine ⟨brentq_rootfindCount_le f a b xtol 100,
    brentq_rootfindCount_fst f a b xtol 100, ?_, ?_⟩
  · have hlen := invertGoCount_le zf t lo hi (linspace lo hi n) none none
    rw [linspace_length] at hlen
    exact hlen
  · exact invertGoCount_fst zf t lo hi (linspace lo hi n) none none

/-! ## Claim C2: fallback behaviour of invert_zscore_function -/

lemma usableSamples_cons_none (zf : ℚ → Option ℚ) (t x : ℚ) (xs : List ℚ)
    (hz : zf x = none) :
    usableSamples zf t (x :: xs) = usableSamples zf t xs := by
  simp [usableSamples, hz]

lemma usableSamples_cons_some (zf : ℚ → Option ℚ) (t x z : ℚ) (xs : List ℚ)
    (hz : zf x = some z) :
    usableSamples zf t (x :: xs) = (x, z - t) :: usableSamples zf t xs := by
  simp [usableSamples, hz]

lemma usableSamples_mem {zf : ℚ → Option ℚ} {t : ℚ} {xs : List ℚ} {p : ℚ × ℚ}
    (hp : p ∈ usableSamples zf t xs) :
    p.1 ∈ xs ∧ zf p.1 = some (p.2 + t) := by
  unfold usableSamples at hp
  rw [List.mem_filterMap] at hp
  obtain ⟨x, hx, hmap⟩ := hp
  cases hz : zf x with
  | none => rw [hz] at hmap; simp at hmap
  | some z =>
    rw [hz] at hmap
    have hmap' : (x, z - t) = p := Option.some.inj hmap
    subst hmap' 
    refine ⟨hx, ?_⟩
    rw [hz]
    congr 1
    ring

lemma usableSamples_eq_nil (zf : ℚ → Option ℚ) (t : ℚ) (xs : List ℚ)
    (h : ∀ x ∈ xs, zf x = none) :
    usableSamples zf t xs = [] := by
  unfold usableSamples
  rw [List.filterMap_eq_nil_iff]
  intro x hx
  rw [h x hx]
  rfl

lemma bestOf_spec :
    ∀ (l : List (ℚ × ℚ)) (b : ℚ × ℚ),
      (bestOf l b = b ∨ ∃ p ∈ l, bestOf l b = (p.1, |p.2|)) ∧
      (bestOf l b).2 ≤ b.2 ∧ ∀ p ∈ l, (bestOf l b).2 ≤ |p.2| := by
  intro l
  induction l with
  | nil => intro b; simp [bestOf]
  | cons hd tl ih =>
    intro b
    by_cases hc : |hd.2| < b.2
    · have heq : bestOf (hd :: tl) b = bestOf tl (hd.1, |hd.2|) := by
        simp [bestOf, hc]
      obtain ⟨hc1, hc2, hc3⟩ := ih (hd.1, |hd.2|)
      refine ⟨?_, ?_, ?_⟩
      · rcases hc1 with h1 | ⟨p, hp, h1⟩
        · right; exact ⟨hd, List.mem_cons_self hd tl, heq ▸ h1⟩
        · right; exact ⟨p, List.mem_cons_of_mem hd hp, heq ▸ h1⟩
      · rw [heq]
        exact le_trans hc2 (le_of_lt hc)
      · intro p hp
        rcases List.mem_cons.mp hp with rfl | hp'
        · rw [heq]; exact hc2
        · rw [heq]; exact hc3 p hp'
    · have heq : bestOf (hd :: tl) b = bestOf tl b := by
        simp [bestOf, hc]
      obtain ⟨hc1, hc2, hc3⟩ := ih b
      refine ⟨?_, ?_, ?_⟩
      · rcases hc1 with h1 | ⟨p, hp, h1⟩
        · left; exact heq ▸ h1
        · right; exact ⟨p, List.mem_cons_of_mem hd hp, heq ▸ h1⟩
      · rw [heq]; exact hc2
      · intro p hp
        rcases List.mem_cons.mp hp with rfl | hp'
        · rw [heq]; exact le_trans hc2 (not_lt.mp hc)
        · rw [heq]; exact hc3 p hp'

lemma invertGo_noBracket (zf : ℚ → Option ℚ) (t lo hi : ℚ) :
    ∀ (xs : List ℚ) (lx lf bx ba : ℚ),
      List.Chain' (fun p q : ℚ × ℚ => 0 ≤ p.2 * q.2)
        ((lx, lf) :: usableSamples zf t xs) →
      invertGo zf t lo hi xs (some (lx, lf)) (some (bx, ba)) =
        (bestOf (usableSamples zf t xs) (bx, ba)).1 := by
  intro xs
  induction xs with
  | nil =>
    intro lx lf bx ba _
    rfl
  | cons x xs ih =>
    intro lx lf bx ba hchain
    cases hz : zf x with
    | none =>
      have hus := usableSamples_cons_none zf t x xs hz
      rw [hus] at hchain
      simp only [invertGo, hz]
      rw [hus]
      exact ih lx lf bx ba hchain
    | some z =>
      have hus := usableSamples_cons_some zf t x z xs hz
      rw [hus] at hchain
      have h1 : 0 ≤ lf * (z - t) := (List.chain'_cons.mp hchain).1
      have hchain' := (List.chain'_cons.mp hchain).2
      have hnot : ¬ ((z - t) * lf < 0) := by
        rw [mul_comm]
        exact not_lt.mpr h1
      simp only [invertGo, hz]
      rw [if_neg hnot, hus]
      simp only [bestUpdate, bestOf]
      by_cases hb : |z - t| < ba
      · rw [if_pos hb, if_pos hb]
        exact ih x (z - t) x |z - t| hchain'
      · rw [if_neg hb, if_neg hb]
        exact ih x (z - t) bx ba hchain'

lemma invertGo_start (zf : ℚ → Option ℚ) (t lo hi : ℚ) :
    ∀ (xs : List ℚ),
      List.Chain' (fun p q : ℚ × ℚ => 0 ≤ p.2 * q.2) (usableSamples zf t xs) →
      invertGo zf t lo hi xs none none =
        invertFallback lo hi (usableSamples zf t xs) := by
  intro xs
  induction xs with
  | nil =>
    intro _
    rfl
  | cons x xs ih =>
    intro hchain
    cases hz : zf x with
    | none =>
      have hus := usableSamples_cons_none zf t x xs hz
      rw [hus] at hchain
      simp only [invertGo, hz]
      rw [hus]
      exact ih hchain
    | some z =>
      have hus := usableSamples_cons_some zf t x z xs hz
      rw [hus] at hchain
      simp only [invertGo, hz]
      rw [hus]
      simp only [bestUpdate, invertFallback]
      exact invertGo_noBracket zf t lo hi xs x (z - t) x |z - t| hchain

/-- C2: with a null z at every sample point, `invert_zscore_function`
returns the domain midpoint (lo + hi) / 2 (and, being a total Lean
function, it never raises); and when no sign-change bracket exists among
consecutive usable samples (all consecutive residual products are
nonnegative) but at least one sample is usable, it returns a sample
point whose |z - targetZ| is minimal over all usable samples. -/
theorem C2_theorem (zf : ℚ → Option ℚ) (t lo hi : ℚ) (n : ℕ) :
    ((∀ x ∈ linspace lo hi n, zf x = none) →
      invert_zscore_function zf t lo hi n = (lo + hi) / 2) ∧
    (List.Chain' (fun p q : ℚ × ℚ => 0 ≤ p.2 * q.2)
        (usableSamples zf t (linspace lo hi n)) →
      usableSamples zf t (linspace lo hi n) ≠ [] →
      ∃ x z, invert_zscore_function zf t lo hi n = x ∧
        x ∈ linspace lo hi n ∧ zf x = some z ∧
        ∀ p ∈ usableSamples zf t (linspace lo hi n), |z - t| ≤ |p.2|) := by
  constructor
  · intro hall
    have hnil := usableSamples_eq_nil zf t (linspace lo hi n) hall
    unfold invert_zscore_function
    rw [invertGo_start zf t lo hi _ (by rw [hnil]; exact List.chain'_nil)]
    rw [hnil]
    rfl
  · intro hchain hne
    unfold invert_zscore_function
    rw [invertGo_start zf t lo hi _ hchain]
    cases hus : usableSamples zf t (linspace lo hi n) with
    | nil => exact absurd hus hne
    | cons p0 rest =>
      obtain ⟨hd1, hd2, hd3⟩ := bestOf_spec rest (p0.1, |p0.2|)
      have hex : ∃ q ∈ p0 :: rest, bestOf rest (p0.1, |p0.2|) = (q.1, |q.2|) := by
        rcases hd1 with h1 | ⟨p, hp, h1⟩
        · exact ⟨p0, List.mem_cons_self _ _, h1⟩
        · exact ⟨p, List.mem_cons_of_mem _ hp, h1⟩
      obtain ⟨q, hq, hr⟩ := hex
      have hqmem : q ∈ usableSamples zf t (linspace lo hi n) := by
        rw [hus]; exact hq
      obtain ⟨hq1, hq2⟩ := usableSamples_mem hqmem
      refine ⟨q.1, q.2 + t, ?_, hq1, hq2, ?_⟩
      · simp only [invertFallback]
        rw [hr]
      · intro p hp
        have habs : (bestOf rest (p0.1, |p0.2|)).2 ≤ |p.2| := by
          rcases List.mem_cons.mp hp with rfl | hp'
          · exact hd2
          · exact hd3 p hp'
        rw [hr] at habs
        simpa using habs

unseal Rat.mul Rat.add Rat.sub Rat.inv Rat.ofScientific in
/-- C2 witness: the midpoint fallback at an always-null curve on [0, 2]
with 3 samples, and the best-sample fallback for the bracket-free curve
z(x) = x + 10 with target 0 on [0, 1] with 2 samples. -/
theorem C2_witness :
    invert_zscore_function (fun _ => none) 0 0 2 3 = (0 + 2) / 2 ∧
    (∃ x z, invert_zscore_function zfShift 0 0 1 2 = x ∧
      x ∈ linspace 0 1 2 ∧ zfShift x = some z ∧
      ∀ p ∈ usableSamples zfShift 0 (linspace 0 1 2), |z - 0| ≤ |p.2|) :=
  ⟨(C2_theorem (fun _ => none) 0 0 2 3).1 (fun x _ => rfl),
   (C2_theorem zfShift 0 0 1 2).2
     (by
       have husw : usableSamples zfShift 0 (linspace 0 1 2) = [(0, 10), (1, 11)] := by
         decide
       rw [husw]
       exact List.chain'_cons.mpr ⟨by norm_num, List.chain'_singleton _⟩)
     (by decide)⟩

/-! ## Claim C6: the aggregate severity of the velocity report -/

unseal Rat.mul Rat.add Rat.sub Rat.inv Rat.ofScientific in
/-- C6 (counterexample): on `c6data` one weight evaluation has severity
attention and nothing is critical or warning, yet the overall report
severity is normal, not attention: the aggregation only inspects
critical and warning. -/
theorem C6_counterexample :
    (resultEvaluations (analyze_growth_velocity c6data "Laki-laki")).map
        (fun e => (e.bb_evaluation.severity, e.tb_evaluation.severity)) =
      [("attention", "normal")] ∧
    resultOverall (analyze_growth_velocity c6data "Laki-laki") =
      some ("normal",
        "✅ Pertumbuhan keseluruhan dalam rentang normal. Pertahankan pola makan dan stimulasi.") ∧
    ("normal" : String) ≠ "attention" := by
  refine ⟨by decide, by decide, by decide⟩

/-- C6 (amended): the aggregate severity of a successful report is
critical when any interval-times-measure evaluation is critical, else
warning when any is warning, else normal, with the fixed message of that
level; attention-level evaluations do not raise the aggregate. -/
theorem C6_theorem (data : List Meas) (gender : String)
    (h : isSuccess (analyze_growth_velocity data gender) = true) :
    resultOverall (analyze_growth_velocity data gender) = some (
      if (resultEvaluations (analyze_growth_velocity data gender)).any
          (fun e => e.bb_evaluation.severity == "critical" ||
            e.tb_evaluation.severity == "critical") then
        ("critical",
         "⚠️ PERHATIAN: Terdeteksi penurunan atau pertumbuhan sangat lambat. Segera konsultasi ke dokter!")
      else if (resultEvaluations (analyze_growth_velocity data gender)).any
          (fun e => e.bb_evaluation.severity == "warning" ||
            e.tb_evaluation.severity == "warning") then
        ("warning",
         "📊 Perlu perhatian: Beberapa periode menunjukkan pertumbuhan di bawah rata-rata.")
      else
        ("normal",
         "✅ Pertumbuhan keseluruhan dalam rentang normal. Pertahankan pola makan dan stimulasi.")) := by
  simp only [analyze_growth_velocity] at h ⊢
  by_cases h1 : data.length < 2
  · rw [if_pos h1] at h
    exact absurd h (by simp [isSuccess])
  · rw [if_neg h1] at h ⊢
    by_cases h2 : (velocitiesOf (List.insertionSort byAge data)).isEmpty = true
    · rw [if_pos h2] at h
      exact absurd h (by simp [isSuccess])
    · rw [if_neg h2] at h ⊢
      simp only [resultOverall, resultEvaluations]
      refine congrArg some ?_
      rw [Prod.mk.eta]
      refine if_congr ?_ rfl (if_congr ?_ rfl rfl)
      · simp [List.countP_pos_iff, List.any_eq_true]
      · simp [List.countP_pos_iff, List.any_eq_true]

unseal Rat.mul Rat.add Rat.sub Rat.inv Rat.ofScientific in
/-- C6 witness: the amended aggregation rule at a concrete all-normal
report. -/
theorem C6_witness :
    isSuccess (analyze_growth_velocity c6wdata "Laki-laki") = true ∧
    resultOverall (analyze_growth_velocity c6wdata "Laki-laki") = some (
      if (resultEvaluations (analyze_growth_velocity c6wdata "Laki-laki")).any
          (fun e => e.bb_evaluation.severity == "critical" ||
            e.tb_evaluation.severity == "critical") then
        ("critical",
         "⚠️ PERHATIAN: Terdeteksi penurunan atau pertumbuhan sangat lambat. Segera konsultasi ke dokter!")
      else if (resultEvaluations (analyze_growth_velocity c6wdata "Laki-laki")).any
          (fun e => e.bb_evaluation.severity == "warning" ||
            e.tb_evaluation.severity == "warning") then
        ("warning",
         "📊 Perlu perhatian: Beberapa periode menunjukkan pertumbuhan di bawah rata-rata.")
      else
        ("normal",
         "✅ Pertumbuhan keseluruhan dalam rentang normal. Pertahankan pola makan dan stimulasi.")) :=
  ⟨by decide, C6_theorem c6wdata "Laki-laki" (by decide)⟩

/-! ## Claim C7: interval validation in analyze_growth_velocity -/

lemma insertionSort_pair (m1 m2 : Meas) :
    List.insertionSort byAge [m1, m2] =
      if m1.usia_bulan ≤ m2.usia_bulan then [m1, m2] else [m2, m1] := by
  simp only [List.insertionSort, List.orderedInsert]
  by_cases h : byAge m1 m2
  · rw [if_pos h, if_pos (show m1.usia_bulan ≤ m2.usia_bulan from h)]
  · rw [if_neg h, if_neg (show ¬ m1.usia_bulan ≤ m2.usia_bulan from h)]

lemma velocitiesOf_pair (a b : Meas) :
    velocitiesOf [a, b] = (calculate_velocity a b).toList := by
  cases h : calculate_velocity a b <;>
    simp [velocitiesOf, h]

/-- C7: fewer than 2 measurements fail with the validation message; an
adjacent pair is dropped exactly when its age delta is nonpositive; for
at least 2 measurements the batch fails exactly when no valid interval
remains; 2 measurements with distinct ages give exactly 1 interval and 2
measurements with equal ages fail the batch. -/
theorem C7_theorem (data : List Meas) (g : String) :
    (data.length < 2 →
      analyze_growth_velocity data g =
        AnalysisResult.failure "Minimal 2 pengukuran diperlukan untuk analisis") ∧
    (∀ a b : Meas,
      calculate_velocity a b = none ↔ b.usia_bulan - a.usia_bulan ≤ 0) ∧
    (2 ≤ data.length →
      ((∃ e, analyze_growth_velocity data g = AnalysisResult.failure e) ↔
        velocitiesOf (List.insertionSort byAge data) = [])) ∧
    (∀ m1 m2 : Meas, data = [m1, m2] →
      (m1.usia_bulan ≠ m2.usia_bulan →
        ∃ v, resultVelocities (analyze_growth_velocity data g) = some [v]) ∧
      (m1.usia_bulan = m2.usia_bulan →
        analyze_growth_velocity data g =
          AnalysisResult.failure "Tidak dapat menghitung velocity (periksa urutan usia)")) := by
  refine ⟨?_, ?_, ?_, ?_⟩
  · intro h1
    simp only [analyze_growth_velocity]
    rw [if_pos h1]
  · intro a b
    constructor
    · intro hnone
      by_contra hpos
      simp only [calculate_velocity] at hnone
      rw [if_neg hpos] at hnone
      exact Option.noConfusion hnone
    · intro hle
      simp only [calculate_velocity]
      rw [if_pos hle]
  · intro hlen
    have h1 : ¬ data.length < 2 := by omega
    constructor
    · rintro ⟨e, he⟩
      by_contra hv
      simp only [analyze_growth_velocity] at he
      rw [if_neg h1] at he
      rw [if_neg (by simpa [List.isEmpty_iff] using hv)] at he
      exact AnalysisResult.noConfusion he
    · intro hv
      refine ⟨"Tidak dapat menghitung velocity (periksa urutan usia)", ?_⟩
      simp only [analyze_growth_velocity]
      rw [if_neg h1, if_pos (by simp [List.isEmpty_iff, hv])]
  · intro m1 m2 hdata
    subst hdata
    constructor
    · intro hne
      rcases le_or_lt m1.usia_bulan m2.usia_bulan with hle | hlt
      · have hlt' : m1.usia_bulan < m2.usia_bulan := lt_of_le_of_ne hle hne
        have hcv : ∃ v, calculate_velocity m1 m2 = some v := by
          simp only [calculate_velocity]
          rw [if_neg (by linarith : ¬ m2.usia_bulan - m1.usia_bulan ≤ 0)]
          exact ⟨_, rfl⟩
        obtain ⟨v, hv⟩ := hcv
        refine ⟨v, ?_⟩
        simp only [analyze_growth_velocity]
        rw [if_neg (by simp : ¬ ([m1, m2] : List Meas).length < 2)]
        rw [insertionSort_pair, if_pos hle, velocitiesOf_pair, hv]
        simp [resultVelocities]
      · have hcv : ∃ v, calculate_velocity m2 m1 = some v := by
          simp only [calculate_velocity]
          rw [if_neg (by linarith : ¬ m1.usia_bulan - m2.usia_bulan ≤ 0)]
          exact ⟨_, rfl⟩
        obtain ⟨v, hv⟩ := hcv
        refine ⟨v, ?_⟩
        simp only [analyze_growth_velocity]
        rw [if_neg (by simp : ¬ ([m1, m2] : List Meas).length < 2)]
        rw [insertionSort_pair, if_neg (by linarith : ¬ m1.usia_bulan ≤ m2.usia_bulan),
          velocitiesOf_pair, hv]
        simp [resultVelocities]
    · intro heq
      have h0 : calculate_velocity m1 m2 = none := by
        simp only [calculate_velocity]
        rw [if_pos (by rw [heq]; simp)]
      have h0' : calculate_velocity m2 m1 = none := by
        simp only [calculate_velocity]
        rw [if_pos (by rw [heq]; simp)]
      simp only [analyze_growth_velocity]
      rw [if_neg (by simp : ¬ ([m1, m2] : List Meas).length < 2)]
      rw [insertionSort_pair]
      by_cases hle : m1.usia_bulan ≤ m2.usia_bulan
      · rw [if_pos hle, velocitiesOf_pair, h0]
        simp
      · rw [if_neg hle, velocitiesOf_pair, h0']
        simp

/-- C7 witness: the validation failure on one measurement, the dropped
degenerate pair, the equal-ages batch failure, and the one-interval case
for two distinct ages. -/
theorem C7_witness :
    analyze_growth_velocity [⟨0, 1, 2⟩] "M" =
      AnalysisResult.failure "Minimal 2 pengukuran diperlukan untuk analisis" ∧
    (calculate_velocity ⟨1, 2, 3⟩ ⟨1, 4, 5⟩ = none ↔ (1 : ℚ) - 1 ≤ 0) ∧
    analyze_growth_velocity [⟨2, 5, 50⟩, ⟨2, 6, 60⟩] "M" =
      AnalysisResult.failure "Tidak dapat menghitung velocity (periksa urutan usia)" ∧
    (∃ v, resultVelocities (analyze_growth_velocity [⟨1, 5, 50⟩, ⟨3, 6, 60⟩] "M") =
      some [v]) :=
  ⟨(C7_theorem [⟨0, 1, 2⟩] "M").1 (by norm_num),
   (C7_theorem [] "M").2.1 ⟨1, 2, 3⟩ ⟨1, 4, 5⟩,
   ((C7_theorem [⟨2, 5, 50⟩, ⟨2, 6, 60⟩] "M").2.2.2 ⟨2, 5, 50⟩ ⟨2, 6, 60⟩ rfl).2 rfl,
   ((C7_theorem [⟨1, 5, 50⟩, ⟨3, 6, 60⟩] "M").2.2.2 ⟨1, 5, 50⟩ ⟨3, 6, 60⟩ rfl).1
     (by norm_num)⟩

/-! ## Claim C8: permutation invariance of the velocity analysis -/

unseal Rat.mul Rat.add Rat.sub Rat.inv Rat.ofScientific in
/-- C8 (counterexample): `c8b` is a permutation of `c8a` (two rows share
age 1), yet the two analyses differ: the stable sort keeps the tied rows
in input order, so the surviving interval starts from a different row
and its velocities change. -/
theorem C8_counterexample :
    c8a.Perm c8b ∧
    analyze_growth_velocity c8a "Laki-laki" ≠
      analyze_growth_velocity c8b "Laki-laki" := by
  constructor
  · unfold c8a c8b
    exact List.Perm.swap _ _ _
  · decide

/-- C8 (amended): when the measurement ages are pairwise distinct,
`analyze_growth_velocity` returns identical output for every permutation
of the input list. -/
theorem C8_theorem (l1 l2 : List Meas) (g : String) (hp : l1.Perm l2)
    (hd : l1.Pairwise fun a b => a.usia_bulan ≠ b.usia_bulan) :
    analyze_growth_velocity l1 g = analyze_growth_velocity l2 g := by
  have hlen : l1.length = l2.length := hp.length_eq
  have hperm : (List.insertionSort byAge l1).Perm (List.insertionSort byAge l2) :=
    (List.perm_insertionSort byAge l1).trans
      (hp.trans (List.perm_insertionSort byAge l2).symm)
  have hd1 : (List.insertionSort byAge l1).Pairwise
      fun a b => a.usia_bulan ≠ b.usia_bulan :=
    (List.Perm.pairwise_iff (fun h => h.symm)
      (List.perm_insertionSort byAge l1)).mpr hd
  have hd2 : (List.insertionSort byAge l2).Pairwise
      fun a b => a.usia_bulan ≠ b.usia_bulan :=
    (List.Perm.pairwise_iff (fun h => h.symm)
      ((List.perm_insertionSort byAge l2).trans hp.symm)).mpr hd
  have hstrict1 : List.Pairwise byAgeLT (List.insertionSort byAge l1) :=
    ((List.sorted_insertionSort byAge l1).and hd1).imp
      fun h => lt_of_le_of_ne h.1 h.2
  have hstrict2 : List.Pairwise byAgeLT (List.insertionSort byAge l2) :=
    ((List.sorted_insertionSort byAge l2).and hd2).imp
      fun h => lt_of_le_of_ne h.1 h.2
  have hsorted : List.insertionSort byAge l1 = List.insertionSort byAge l2 :=
    List.eq_of_perm_of_sorted hperm hstrict1 hstrict2
  simp only [analyze_growth_velocity]
  rw [hlen, hsorted]

/-- C8 witness: invariance at a concrete distinct-age pair of lists. -/
theorem C8_witness :
    analyze_growth_velocity [⟨1, 2, 3⟩, ⟨2, 3, 4⟩] "F" =
      analyze_growth_velocity [⟨2, 3, 4⟩, ⟨1, 2, 3⟩] "F" :=
  C8_theorem [⟨1, 2, 3⟩, ⟨2, 3, 4⟩] [⟨2, 3, 4⟩, ⟨1, 2, 3⟩] "F"
    (List.Perm.swap (⟨2, 3, 4⟩ : Meas) ⟨1, 2, 3⟩ [])
    (by decide)

end PeduliGizi
